import Mathlib

/-!
# Verification of the PicoPixels LED-matrix device program

Shallow embedding of `src/device/main.py` (a MicroPython controller for a
32×8 MAX7219 dot-matrix display) together with theorems settling the
specification claims.

Modelling conventions:
* Python machine-width-free integers become `ℤ` (or `ℕ` for indices).
* Python float phase accumulators (`wave_offset`, `plasma_offset`) are
  modelled as `ℚ`; their increments (`0.3`, `0.2`, `0.1`) become the exact
  rationals `3/10`, `1/5`, `1/10`.  The claims about them only concern which
  state variables a step reads and writes, never float rounding.
* `random.randint` / `random.random` / `random.choice` draws are modelled as
  oracle functions passed in explicitly; theorems quantify over all oracles
  whose values lie in the ranges the library guarantees.
* Python `//` is floor division, modelled by `Int.ediv`.
* Effects draw to the display through `display.pixel`/`display.fill`/
  `display.show`; the pixel patterns of the animation frames (which involve
  `math.sin` and wall-clock time) are not modelled — only the mutations each
  effect performs on program state, plus the events the claims observe
  (effect invocations, `display.brightness` calls, diagnostic prints).
-/

namespace PicoPixels

/-- Display width (`WIDTH = 32` in `main.py`). -/
def WIDTH : ℤ := 32

/-- Display height (`HEIGHT = 8` in `main.py`). -/
def HEIGHT : ℤ := 8

/-! ## String helpers: Python `str.lower`, `str.upper`, `str.split`, `int()` -/

/-- Lower-case one ASCII character, as Python `str.lower` does on ASCII. -/
def pyCharLower (c : Char) : Char :=
  if 'A' ≤ c ∧ c ≤ 'Z' then Char.ofNat (c.toNat + 32) else c

/-- Upper-case one ASCII character, as Python `str.upper` does on ASCII. -/
def pyCharUpper (c : Char) : Char :=
  if 'a' ≤ c ∧ c ≤ 'z' then Char.ofNat (c.toNat - 32) else c

/-- Python `s.lower()` restricted to ASCII (all command text is ASCII). -/
def pyLower (s : String) : String := String.mk (s.data.map pyCharLower)

/-- Python `s.upper()` restricted to ASCII. -/
def pyUpper (s : String) : String := String.mk (s.data.map pyCharUpper)

/-- Python `command.strip().split()`: split on whitespace runs, dropping
empty tokens (which also subsumes the leading `strip`). -/
def tokenize (s : String) : List String :=
  ((s.data.splitOnP (fun c => c.isWhitespace)).filter (fun l => l ≠ [])).map
    (fun l => String.mk l)

/-- Numeric value of a list of ASCII digits. -/
def digitsVal (ds : List Char) : ℤ :=
  ds.foldl (fun acc c => acc * 10 + ((c.toNat : ℤ) - 48)) 0

/-- Surrounding-whitespace strip on a character list. -/
def stripWs (l : List Char) : List Char :=
  ((l.dropWhile Char.isWhitespace).reverse.dropWhile Char.isWhitespace).reverse

/-- Python `int(s)`: optional surrounding whitespace, optional sign, then a
non-empty run of digits; anything else raises `ValueError`, modelled as
`none`.  (Underscore digit separators and non-ASCII digits, which Python
also accepts, are not exercised by this program's protocol.) -/
def pyParseInt (s : String) : Option ℤ :=
  match stripWs s.data with
  | [] => none
  | '-' :: ds =>
      if ds ≠ [] ∧ ds.all Char.isDigit then some (-(digitsVal ds)) else none
  | '+' :: ds =>
      if ds ≠ [] ∧ ds.all Char.isDigit then some (digitsVal ds) else none
  | ds =>
      if ds.all Char.isDigit then some (digitsVal ds) else none

/-! ## Orientation transform (spec-modelled)

The repository's `src/` tree contains only one of the two near-duplicate
device programs; the variant carrying the `flip` command and the
logical-to-physical orientation transform is not present.  The following
definitions are therefore modelled from the spec. -/

/-- Modelled from the spec: the Orientation Config of the device variant
missing from `src/` — `flipHorizontal: bool`, `flipVertical: bool`. -/
structure Orient where
  flipHorizontal : Bool
  flipVertical : Bool
deriving DecidableEq, Repr

/-- Modelled from the spec: the pure orientation transform
`physical(x, y) = (flipHorizontal ? W−1−x : x, flipVertical ? H−1−y : y)`. -/
def physical (o : Orient) (x y : ℤ) : ℤ × ℤ :=
  (if o.flipHorizontal then WIDTH - 1 - x else x,
   if o.flipVertical then HEIGHT - 1 - y else y)

/-- Modelled from the spec: the `flip h|v|both|reset` command of the device
variant missing from `src/`: `h` toggles the horizontal flag, `v` the
vertical flag, `both` toggles both, `reset` clears both. -/
def flipCommand (arg : String) (o : Orient) : Orient :=
  if arg = "h" then { o with flipHorizontal := !o.flipHorizontal }
  else if arg = "v" then { o with flipVertical := !o.flipVertical }
  else if arg = "both" then
    { flipHorizontal := !o.flipHorizontal, flipVertical := !o.flipVertical }
  else if arg = "reset" then { flipHorizontal := false, flipVertical := false }
  else o

/-! ## Effect state: matrix rain drops -/

/-- One matrix-rain drop (`drops` entries: `{'x': …, 'y': …, 'length': …}`). -/
structure Drop where
  x : ℤ
  y : ℤ
  length : ℤ
deriving DecidableEq, Repr

/-- State update of one drop inside `matrix_rain`: the drop moves down by 1;
when its `y` exceeds `HEIGHT + 2` it respawns at a fresh random row
(`randint(-5,-1)`) and column (`randint(0, WIDTH-1)`), supplied here by the
oracle values `newY`, `newX`. -/
def dropStep (newY newX : ℤ) (d : Drop) : Drop :=
  let y1 := d.y + 1
  if y1 > HEIGHT + 2 then { x := newX, y := newY, length := d.length }
  else { d with y := y1 }

/-! ## Effect state: bouncing balls -/

/-- One bouncing ball (`balls` entries: `{'x','y','dx','dy'}`). -/
structure Ball where
  x : ℤ
  y : ℤ
  dx : ℤ
  dy : ℤ
deriving DecidableEq, Repr

/-- State update of one ball inside `bouncing_balls`: position advances by
velocity; on reaching either horizontal or vertical boundary the matching
velocity component flips sign and the position is clamped into range. -/
def ballStep (b : Ball) : Ball :=
  let x1 := b.x + b.dx
  let y1 := b.y + b.dy
  let xBounce := x1 ≤ 0 ∨ x1 ≥ WIDTH - 1
  let yBounce := y1 ≤ 0 ∨ y1 ≥ HEIGHT - 1
  { x := if xBounce then max 0 (min (WIDTH - 1) x1) else x1,
    y := if yBounce then max 0 (min (HEIGHT - 1) y1) else y1,
    dx := if xBounce then -b.dx else b.dx,
    dy := if yBounce then -b.dy else b.dy }

/-! ## Effect state: pong -/

/-- The pong state: ball position/velocity (`pong_ball`, floats in the
source but always integer-valued, since they start at `(16.0, 4.0)` and move
by `dx, dy ∈ {−1,+1}`) and the two paddle centres (`pong_paddle1`,
`pong_paddle2`). -/
structure PongState where
  x : ℤ
  y : ℤ
  dx : ℤ
  dy : ℤ
  paddle1 : ℤ
  paddle2 : ℤ
deriving DecidableEq, Repr

/-- State update of `pong_effect`, following the source order exactly:
move the ball; bounce off top/bottom (flip `dy`, clamp `y`); move the left
paddle one step toward the ball; move the right paddle likewise but only
when the 80%-probability draw `p2Move` fires; paddle collision tests on the
integer ball position (identity here) possibly rewriting `dx`/`dy`; finally,
if the ball's column left `[0, WIDTH)`, respawn at the centre with the
random diagonal velocity `(rdx, rdy)` (each a `choice([-1,1])` draw). -/
def pongStep (p2Move : Bool) (rdx rdy : ℤ) (s : PongState) : PongState :=
  let x1 := s.x + s.dx
  let y1 := s.y + s.dy
  let yBounce := y1 ≤ 0 ∨ y1 ≥ HEIGHT - 1
  let y2 := if yBounce then max 0 (min (HEIGHT - 1) y1) else y1
  let dy2 := if yBounce then -s.dy else s.dy
  let p1 :=
    if y2 > s.paddle1 then min (s.paddle1 + 1) (HEIGHT - 2)
    else if y2 < s.paddle1 then max (s.paddle1 - 1) 1
    else s.paddle1
  let p2 :=
    if p2Move then
      if y2 > s.paddle2 then min (s.paddle2 + 1) (HEIGHT - 2)
      else if y2 < s.paddle2 then max (s.paddle2 - 1) 1
      else s.paddle2
    else s.paddle2
  let leftHit := x1 ≤ 1 ∧ |y2 - p1| ≤ 1
  let dx3 := if leftHit then |s.dx| else s.dx
  let dy3 :=
    if leftHit then (if y2 < p1 then -1 else if y2 > p1 then 1 else dy2)
    else dy2
  let rightHit := x1 ≥ WIDTH - 2 ∧ |y2 - p2| ≤ 1
  let dx4 := if rightHit then -|dx3| else dx3
  let dy4 :=
    if rightHit then (if y2 < p2 then -1 else if y2 > p2 then 1 else dy3)
    else dy3
  if x1 < 0 ∨ x1 ≥ WIDTH then
    { x := WIDTH / 2, y := HEIGHT / 2, dx := rdx, dy := rdy,
      paddle1 := p1, paddle2 := p2 }
  else
    { x := x1, y := y2, dx := dx4, dy := dy4, paddle1 := p1, paddle2 := p2 }

/-! ## Effect state: fire -/

/-- One tick's worth of random draws for `fire_effect`:
`cool y x` models `random.randint(1, 2)` in the cool-down pass,
`injectQ x` models `random.random() < 0.6` for the bottom-row heat
injection, `injectV x` models `random.randint(10, 15)`, and
`prop y x` models `random.randint(0, 2)` in the upward propagation pass. -/
structure FireOracle where
  cool : ℕ → ℕ → ℤ
  injectQ : ℕ → Bool
  injectV : ℕ → ℤ
  prop : ℕ → ℕ → ℤ

/-- The ranges `random` guarantees for the draws of one fire tick. -/
def FireOracle.Valid (fo : FireOracle) : Prop :=
  (∀ y x, 1 ≤ fo.cool y x ∧ fo.cool y x ≤ 2) ∧
  (∀ x, 10 ≤ fo.injectV x ∧ fo.injectV x ≤ 15) ∧
  (∀ y x, 0 ≤ fo.prop y x ∧ fo.prop y x ≤ 2)

/-- The fire heat buffer `fire_buffer`, an `HEIGHT × WIDTH` grid indexed
`buffer row column` (row 7 is the bottom). -/
def FireBuffer : Type := ℕ → ℕ → ℤ

/-- Cool-down pass: `for y in range(HEIGHT-1)` (rows 0..6), each cell loses
`randint(1,2)` heat, floored at 0 by `max(0, …)`; the bottom row is not
cooled. -/
def fireCooled (fo : FireOracle) (f : FireBuffer) : FireBuffer :=
  fun y x => if y < 7 then max 0 (f y x - fo.cool y x) else f y x

/-- Heat-injection pass on the bottom row: with probability 0.6 a cell is
set to `randint(10, 15)`. -/
def fireInjected (fo : FireOracle) (f : FireBuffer) : FireBuffer :=
  fun y x => if y = 7 ∧ fo.injectQ x then fo.injectV x else f y x

/-- The 3-neighbourhood heat sum read from the row below:
`buf[y+1][x] (+ buf[y+1][x-1] if x>0) (+ buf[y+1][x+1] if x<WIDTH-1)`. -/
def heat3 (row : ℕ → ℤ) (x : ℕ) : ℤ :=
  row x + (if 0 < x then row (x - 1) else 0) + (if x < 31 then row (x + 1) else 0)

/-- Rows of the propagation pass, built bottom-up: `fireRowUp fo bottom k`
is the final contents of row `7 - k`.  The source loop runs
`for y in range(HEIGHT-2, -1, -1)`, so row `y` reads the already-rewritten
row `y+1`; each new cell is `max(0, heat // 3 - randint(0, 2))` with `//`
Python's floor division, which on `ℤ` with positive divisor is exactly the
Euclidean division `/` (`Int.ediv`). -/
def fireRowUp (fo : FireOracle) (bottom : ℕ → ℤ) : ℕ → ℕ → ℤ
  | 0 => bottom
  | k + 1 => fun x =>
      max 0 (heat3 (fireRowUp fo bottom k) x / 3 - fo.prop (6 - k) x)

/-- One full `fire_effect` state tick: cool, inject, then propagate upward.
(The subsequent drawing of cells with heat > 7 touches only the display.) -/
def fire_effect_step (fo : FireOracle) (f : FireBuffer) : FireBuffer :=
  fun y x =>
    if y ≤ 7 then fireRowUp fo (fun c => fireInjected fo (fireCooled fo f) 7 c) (7 - y) x
    else f y x

/-- Iterated fire ticks, one oracle per tick. -/
def fireRun (fos : List FireOracle) (f : FireBuffer) : FireBuffer :=
  fos.foldl (fun b fo => fire_effect_step fo b) f

/-- The all-zero initial buffer (`[[0]*WIDTH for _ in range(HEIGHT)]`). -/
def zeroFire : FireBuffer := fun _ _ => 0

/-- Every in-range cell of the buffer lies in `[0, 15]`. -/
def FireInRange (f : FireBuffer) : Prop :=
  ∀ y < 8, ∀ x < 32, 0 ≤ f y x ∧ f y x ≤ 15

/-! ## Effect state: scrolling text -/

/-- Cursor update at the end of `scrolling_text` for a message of length
`L` characters: `scroll_pos -= 1`, then reset to `WIDTH` once
`scroll_pos < -total_width` with `total_width = 4 * L`. -/
def scrollStepPos (L : ℕ) (p : ℤ) : ℤ :=
  let p1 := p - 1
  if p1 < -(4 * (L : ℤ)) then WIDTH else p1

/-! ## Whole-program state and the effect library -/

/-- The program's global mutable state: runtime config (`running`,
`current_effect`, `speed`, `brightness`), every effect's private state
(`drops`, `fire_buffer`, `plasma_offset`, `wave_offset`, `balls`,
`scroll_text`/`scroll_pos`, the pong globals, the clock flags), and the
display frame buffer (`disp x y`). -/
structure Sys where
  running : Bool
  currentEffect : Option String
  speed : ℤ
  brightness : ℤ
  drops : List Drop
  fireBuffer : FireBuffer
  plasmaOffset : ℚ
  waveOffset : ℚ
  balls : List Ball
  scrollText : String
  scrollPos : ℤ
  pong : PongState
  clock24Hour : Bool
  clockShowSeconds : Bool
  clockBlinkColon : Bool
  disp : ℕ → ℕ → Bool

/-- All random draws one effect invocation may consume. -/
structure Oracle where
  dropY : ℕ → ℤ
  dropX : ℕ → ℤ
  fire : FireOracle
  pongP2Move : Bool
  pongDx : ℤ
  pongDy : ℤ

/-- The effect names, in the order of the `effects` dictionary. -/
def effectIds : List String :=
  ["matrix", "fire", "wave", "plasma", "balls", "scanner", "text",
   "dot", "pong", "border", "on", "off", "test", "clock"]

/-- Every first token `process_command` recognises: the dispatcher keywords
plus the bare effect names. -/
def knownCommands : List String :=
  ["start", "stop", "brightness", "speed", "list", "help"] ++ effectIds

/-- `matrix_rain` state tick: every drop advances/respawns. -/
def matrix_rain_step (o : Oracle) (ds : List Drop) : List Drop :=
  (ds.zip (List.range ds.length)).map
    (fun p => dropStep (o.dropY p.2) (o.dropX p.2) p.1)

/-- One invocation of the effect named `e` as a state transition.  The
frame each effect draws (through `display.pixel`/`fill`/`show`, using
`math.sin` and, for `clock`, `time.localtime`) goes to the display sink
only and never feeds back into program state, so it is not modelled here;
what is modelled is every global-variable mutation the source performs:
`matrix` rewrites `drops`; `fire` rewrites `fire_buffer`; `wave`, `scanner`
and `dot` all increment the single shared `wave_offset` (by `0.3`, `0.2`,
`0.1` respectively); `plasma` increments `plasma_offset` by `0.1`; `balls`
rewrites `balls`; `text` updates `scroll_pos`; `pong` rewrites the pong
globals; `border`, `on`, `off`, `test` and `clock` mutate no state. -/
def stepEffect (o : Oracle) (e : String) (s : Sys) : Sys :=
  if e = "matrix" then { s with drops := matrix_rain_step o s.drops }
  else if e = "fire" then { s with fireBuffer := fire_effect_step o.fire s.fireBuffer }
  else if e = "wave" then { s with waveOffset := s.waveOffset + 3/10 }
  else if e = "plasma" then { s with plasmaOffset := s.plasmaOffset + 1/10 }
  else if e = "balls" then { s with balls := s.balls.map ballStep }
  else if e = "scanner" then { s with waveOffset := s.waveOffset + 1/5 }
  else if e = "text" then
    { s with scrollPos := scrollStepPos s.scrollText.length s.scrollPos }
  else if e = "dot" then { s with waveOffset := s.waveOffset + 1/10 }
  else if e = "pong" then
    { s with pong := pongStep o.pongP2Move o.pongDx o.pongDy s.pong }
  else s

/-! ## Command dispatcher -/

/-- Observable events of one dispatch: diagnostic prints, display-sink
brightness calls, and effect invocations. -/
inductive Ev where
  | log (msg : String)
  | setBright (level : ℤ)
  | invoke (effect : String)
deriving DecidableEq, Repr

/-- Whether an event is a diagnostic print (not a display-sink call). -/
def Ev.isLog : Ev → Bool
  | .log _ => true
  | _ => false

/-- One `clock <opt>` option applied to the clock flags, as in the
`for opt in parts[1:]` loop of `process_command`. -/
def applyClockOpt (s : Sys) (opt : String) : Sys :=
  let o := pyLower opt
  if o = "12" ∨ o = "12h" then { s with clock24Hour := false }
  else if o = "24" ∨ o = "24h" then { s with clock24Hour := true }
  else if o = "seconds" ∨ o = "sec" then { s with clockShowSeconds := true }
  else if o = "noseconds" ∨ o = "nosec" then { s with clockShowSeconds := false }
  else if o = "blink" then { s with clockBlinkColon := true }
  else if o = "noblink" then { s with clockBlinkColon := false }
  else s

/-- `process_command` on an already-tokenized command line
(`parts = command.strip().split()`).  Returns the new state together with
the list of observable events, in program order.  Branches follow the
source: `start`, `stop`, bare effect names (with the `text`/`clock`
argument sub-cases), `brightness`, `speed`, `list`, `help`, and the
unknown-command fallthrough.  Diagnostic prints that merely echo fixed help
text are condensed to single `Ev.log` events. -/
def dispatchParts (o : Oracle) (parts : List String) (s : Sys) : Sys × List Ev :=
  match parts with
  | [] => (s, [])
  | p0 :: rest =>
    let cmd := pyLower p0
    let ev0 : Ev := .log ("Command: " ++ cmd)
    if cmd = "start" then
      let eff := match rest with | e :: _ => e | [] => "matrix"
      if eff ∈ effectIds then
        let s1 := { s with currentEffect := some eff, running := true }
        (stepEffect o eff s1,
         [ev0, .log ("Started: " ++ eff), .invoke eff])
      else
        (s, [ev0, .log ("Unknown effect: " ++ eff)])
    else if cmd = "stop" then
      ({ s with running := false, currentEffect := none,
                disp := fun _ _ => false },
       [ev0, .log "Stopped"])
    else if cmd ∈ effectIds then
      if cmd = "text" ∧ rest ≠ [] then
        let s1 := { s with scrollText := pyUpper (String.intercalate " " rest),
                           scrollPos := WIDTH }
        (stepEffect o "text" s1,
         [ev0, .log ("Text set to: " ++ s1.scrollText), .invoke "text",
          .log "Ran: text"])
      else if cmd = "clock" ∧ rest ≠ [] then
        let s1 := rest.foldl applyClockOpt s
        (stepEffect o "clock" s1, [ev0, .invoke "clock", .log "Ran: clock"])
      else
        (stepEffect o cmd s, [ev0, .invoke cmd, .log ("Ran: " ++ cmd)])
    else if cmd = "brightness" then
      match rest with
      | [] => (s, [ev0])
      | a :: _ =>
        match pyParseInt a with
        | some v =>
            let b := max 0 (min 15 v)
            ({ s with brightness := b },
             [ev0, .setBright b, .log ("Brightness: " ++ toString b)])
        | none => (s, [ev0, .log "Invalid brightness"])
    else if cmd = "speed" then
      match rest with
      | [] => (s, [ev0])
      | a :: _ =>
        match pyParseInt a with
        | some v =>
            let sp := max 50 (min 2000 v)
            ({ s with speed := sp },
             [ev0, .log ("Speed: " ++ toString sp ++ "ms")])
        | none => (s, [ev0, .log "Invalid speed"])
    else if cmd = "list" then (s, [ev0, .log "Effects: (list)"])
    else if cmd = "help" then (s, [ev0, .log "Commands: (help text)"])
    else (s, [ev0, .log ("Unknown: " ++ cmd)])

/-- `process_command` on the raw command line. -/
def process_command (o : Oracle) (line : String) (s : Sys) : Sys × List Ev :=
  dispatchParts o (tokenize line) s

/-- The module-level initial state of `main.py` (before `init_effects()`
randomly populates `drops` and `balls`). -/
def initSys : Sys where
  running := false
  currentEffect := none
  speed := 200
  brightness := 5
  drops := []
  fireBuffer := zeroFire
  plasmaOffset := 0
  waveOffset := 0
  balls := []
  scrollText := "HELLO WORLD"
  scrollPos := WIDTH
  pong := { x := 16, y := 4, dx := 1, dy := 1, paddle1 := 4, paddle2 := 4 }
  clock24Hour := true
  clockShowSeconds := false
  clockBlinkColon := true
  disp := fun _ _ => false

/-- A concrete deterministic oracle, used by witnesses. -/
def oracle0 : Oracle where
  dropY := fun _ => -3
  dropX := fun _ => 0
  fire := { cool := fun _ _ => 1, injectQ := fun _ => true,
            injectV := fun _ => 10, prop := fun _ _ => 0 }
  pongP2Move := true
  pongDx := 1
  pongDy := -1

/-! ## State slices per effect -/

/-- The effect names that, per the spec's data model, own a phase scalar —
in the source all three share the single variable `wave_offset`. -/
def phaseShared : List String := ["wave", "scanner", "dot"]

/-- `sliceEq e s t`: effect `e`'s private state (in the sense of the spec's
Effect State Store) agrees between states `s` and `t`. -/
def sliceEq (e : String) (s t : Sys) : Prop :=
  if e = "matrix" then s.drops = t.drops
  else if e = "fire" then ∀ y < 8, ∀ x < 32, s.fireBuffer y x = t.fireBuffer y x
  else if e = "plasma" then s.plasmaOffset = t.plasmaOffset
  else if e = "balls" then s.balls = t.balls
  else if e = "text" then s.scrollText = t.scrollText ∧ s.scrollPos = t.scrollPos
  else if e = "pong" then s.pong = t.pong
  else if e = "clock" then
    s.clock24Hour = t.clock24Hour ∧ s.clockShowSeconds = t.clockShowSeconds ∧
    s.clockBlinkColon = t.clockBlinkColon
  else if e ∈ phaseShared then s.waveOffset = t.waveOffset
  else True

end PicoPixels

open PicoPixels

/-! ## Claim theorems -/

/-- C1: for every orientation state, dispatching `flip h` twice restores the
logical-to-physical pixel mapping (likewise `flip v`), and `flip both`
toggles the horizontal and vertical flip flags independently. -/
theorem C1_flip_involutive_and_both_toggles (o : Orient) :
    (∀ x y : ℤ, physical (flipCommand "h" (flipCommand "h" o)) x y = physical o x y) ∧
    (∀ x y : ℤ, physical (flipCommand "v" (flipCommand "v" o)) x y = physical o x y) ∧
    ((flipCommand "both" o).flipHorizontal = !o.flipHorizontal ∧
     (flipCommand "both" o).flipVertical = !o.flipVertical) := by
  refine ⟨fun x y => ?_, fun x y => ?_, ?_, ?_⟩ <;>
    simp [flipCommand, physical]

/-- C7: after dispatching `stop` (with any trailing tokens) from any runtime
state, `running` is false, the current effect is `none`, and every pixel of
the display buffer is cleared. -/
theorem C7_stop_clears (o : Oracle) (s : Sys) (rest : List String) :
    (dispatchParts o ("stop" :: rest) s).1.running = false ∧
    (dispatchParts o ("stop" :: rest) s).1.currentEffect = none ∧
    ∀ x y, (dispatchParts o ("stop" :: rest) s).1.disp x y = false := by
  have h : pyLower "stop" = "stop" := by decide
  simp [dispatchParts, h]

/-- C10: a `brightness` or `speed` command with no argument token leaves the
whole state (in particular the stored brightness/speed) unchanged and makes
no Display Sink call and no effect invocation — the only event is the
command echo print. -/
theorem C10_no_argument (o : Oracle) (s : Sys) :
    (dispatchParts o ["brightness"] s).1 = s ∧
    (∀ ev ∈ (dispatchParts o ["brightness"] s).2, ev.isLog = true) ∧
    (dispatchParts o ["speed"] s).1 = s ∧
    (∀ ev ∈ (dispatchParts o ["speed"] s).2, ev.isLog = true) := by
  have hb : pyLower "brightness" = "brightness" := by decide
  have hs : pyLower "speed" = "speed" := by decide
  have hb1 : "brightness" ∉ effectIds := by decide
  have hs1 : "speed" ∉ effectIds := by decide
  refine ⟨?_, ?_, ?_, ?_⟩ <;> simp [dispatchParts, hb, hs, hb1, hs1, Ev.isLog]

/-- C2 counterexample: the claim says an integer brightness argument outside
`[0,15]` is rejected with the prior value retained; in the code
`brightness 99` is clamped, storing 15 instead of the prior 5 — and 99 is
also forwarded clamped to the Display Sink, not dropped. -/
theorem C2_counterexample :
    (dispatchParts oracle0 ["brightness", "99"] initSys).1.brightness = 15 ∧
    initSys.brightness = 5 ∧
    Ev.setBright 15 ∈ (dispatchParts oracle0 ["brightness", "99"] initSys).2 := by
  have hb : pyLower "brightness" = "brightness" := by decide
  have hb1 : "brightness" ∉ effectIds := by decide
  have hp : pyParseInt "99" = some 99 := by decide
  refine ⟨?_, rfl, ?_⟩ <;> simp [dispatchParts, hb, hb1, hp, initSys]

/-- C2 (amended): a `brightness <arg>` argument is accepted only when it
parses as an integer; a non-integer argument is ignored with the prior
stored brightness retained (and no sink call); an accepted integer is
clamped into `[0,15]` (so the stored brightness is always in range after
acceptance), and an in-range value `v` is stored exactly and forwarded to
the Display Sink as `setBrightness(v)`. -/
theorem C2_brightness_amended (o : Oracle) (s : Sys) (arg : String)
    (rest : List String) :
    (pyParseInt arg = none →
      (dispatchParts o ("brightness" :: arg :: rest) s).1 = s ∧
      ∀ ev ∈ (dispatchParts o ("brightness" :: arg :: rest) s).2,
        ev.isLog = true) ∧
    (∀ v, pyParseInt arg = some v →
      (dispatchParts o ("brightness" :: arg :: rest) s).1 =
        { s with brightness := max 0 (min 15 v) } ∧
      0 ≤ (dispatchParts o ("brightness" :: arg :: rest) s).1.brightness ∧
      (dispatchParts o ("brightness" :: arg :: rest) s).1.brightness ≤ 15 ∧
      Ev.setBright (max 0 (min 15 v)) ∈
        (dispatchParts o ("brightness" :: arg :: rest) s).2) ∧
    (∀ v, pyParseInt arg = some v → 0 ≤ v → v ≤ 15 →
      (dispatchParts o ("brightness" :: arg :: rest) s).1.brightness = v ∧
      Ev.setBright v ∈ (dispatchParts o ("brightness" :: arg :: rest) s).2) := by
  have hb : pyLower "brightness" = "brightness" := by decide
  have hb1 : "brightness" ∉ effectIds := by decide
  refine ⟨?_, ?_, ?_⟩
  · intro hp
    constructor <;> simp [dispatchParts, hb, hb1, hp, Ev.isLog]
  · intro v hp
    refine ⟨?_, ?_, ?_, ?_⟩ <;> simp [dispatchParts, hb, hb1, hp]
  · intro v hp h0 h15
    have hmm : max 0 (min 15 v) = v := by omega
    constructor <;> simp [dispatchParts, hb, hb1, hp, hmm]

/-- C2 witness: `brightness 9` from the startup state stores 9 and sends
`setBrightness(9)`; `brightness abc` leaves the state untouched. -/
theorem C2_brightness_amended_witness :
    ((dispatchParts oracle0 ["brightness", "9"] initSys).1.brightness = 9 ∧
     Ev.setBright 9 ∈ (dispatchParts oracle0 ["brightness", "9"] initSys).2) ∧
    (dispatchParts oracle0 ["brightness", "abc"] initSys).1 = initSys := by
  refine ⟨?_, ?_⟩
  · exact (C2_brightness_amended oracle0 initSys "9" []).2.2 9 (by decide)
      (by decide) (by decide)
  · exact ((C2_brightness_amended oracle0 initSys "abc" []).1 (by decide)).1

/-- Helper for C6: starting from `WIDTH`, as long as at most `32 + 4L`
steps have happened no reset fires and each step decrements the cursor by
exactly one. -/
theorem scroll_iterate_eq (L k : ℕ) (hk : k ≤ 32 + 4 * L) :
    (scrollStepPos L)^[k] WIDTH = 32 - (k : ℤ) := by
  induction k with
  | zero => simp [WIDTH]
  | succ n ih =>
    have hn : n ≤ 32 + 4 * L := by omega
    rw [Function.iterate_succ_apply', ih hn]
    have hno : ¬(32 - (n : ℤ) - 1 < -(4 * (L : ℤ))) := by
      have hn1 : ((n : ℤ) + 1) ≤ 32 + 4 * (L : ℤ) := by exact_mod_cast hk
      omega
    simp only [scrollStepPos, hno, if_false]
    push_cast
    ring

/-- C6: for a message of length `L`, with the cursor starting at `W = 32`,
each scrolling-text step decrements the cursor by exactly 1 and no reset
fires until the cursor has reached exactly `−4L` (after `32 + 4L` steps);
the very next step resets it to `W`. -/
theorem C6_scroll_wraparound (L k : ℕ) (hk : k ≤ 32 + 4 * L) :
    (scrollStepPos L)^[k] WIDTH = 32 - (k : ℤ) ∧
    (scrollStepPos L)^[32 + 4 * L] WIDTH = -(4 * (L : ℤ)) ∧
    (scrollStepPos L)^[32 + 4 * L + 1] WIDTH = WIDTH := by
  have hend : (scrollStepPos L)^[32 + 4 * L] WIDTH = -(4 * (L : ℤ)) := by
    have := scroll_iterate_eq L (32 + 4 * L) le_rfl
    rw [this]
    push_cast
    ring
  refine ⟨scroll_iterate_eq L k hk, hend, ?_⟩
  rw [Function.iterate_succ_apply', hend]
  have hyes : (-(4 * (L : ℤ)) - 1 < -(4 * (L : ℤ))) := by omega
  simp [scrollStepPos, hyes]

/-- C6 witness: message `"HI"` (length 2): after 40 steps the cursor sits at
`−8 = −4·2`, and step 41 resets it to 32. -/
theorem C6_scroll_wraparound_witness :
    (scrollStepPos 2)^[40] WIDTH = 32 - (40 : ℤ) ∧
    (scrollStepPos 2)^[32 + 4 * 2] WIDTH = -(4 * (2 : ℤ)) ∧
    (scrollStepPos 2)^[32 + 4 * 2 + 1] WIDTH = WIDTH :=
  C6_scroll_wraparound 2 40 (by norm_num)

/-- C5: for every pong step starting with ball `y ∈ [0, H−1]` and
`dy ∈ {−1,+1}` (and respawn draws in `{−1,+1}`, as `random.choice([-1,1])`
guarantees): afterwards `0 ≤ y ≤ H−1` still holds; and whenever the moved
ball's column `x + dx` leaves `[0, W)`, that same step ends with the ball
respawned at the centre `(W/2, H/2)` with a fresh diagonal velocity. -/
theorem C5_pong_step (p2Move : Bool) (rdx rdy : ℤ) (s : PongState)
    (hy0 : 0 ≤ s.y) (hy1 : s.y ≤ HEIGHT - 1) (hdy : s.dy = 1 ∨ s.dy = -1)
    (hrdx : rdx = 1 ∨ rdx = -1) (hrdy : rdy = 1 ∨ rdy = -1) :
    (0 ≤ (pongStep p2Move rdx rdy s).y ∧
     (pongStep p2Move rdx rdy s).y ≤ HEIGHT - 1) ∧
    (s.x + s.dx < 0 ∨ s.x + s.dx ≥ WIDTH →
      (pongStep p2Move rdx rdy s).x = WIDTH / 2 ∧
      (pongStep p2Move rdx rdy s).y = HEIGHT / 2 ∧
      ((pongStep p2Move rdx rdy s).dx = 1 ∨ (pongStep p2Move rdx rdy s).dx = -1) ∧
      ((pongStep p2Move rdx rdy s).dy = 1 ∨ (pongStep p2Move rdx rdy s).dy = -1)) := by
  refine ⟨⟨?_, ?_⟩, fun hout => ?_⟩
  all_goals simp only [pongStep, WIDTH, HEIGHT, apply_ite PongState.x,
    apply_ite PongState.y, apply_ite PongState.dx, apply_ite PongState.dy]
  · split_ifs <;> omega
  · split_ifs <;> omega
  · simp only [WIDTH] at hout
    refine ⟨?_, ?_, ?_, ?_⟩ <;> rw [if_pos hout]
    · exact hrdx
    · exact hrdy

/-- C5 witness: a ball at column 31 moving right leaves the board this step
and is respawned at the centre. -/
theorem C5_pong_step_witness :
    (0 ≤ (pongStep true 1 (-1) ⟨31, 4, 1, 1, 4, 4⟩).y ∧
     (pongStep true 1 (-1) ⟨31, 4, 1, 1, 4, 4⟩).y ≤ HEIGHT - 1) ∧
    ((31 : ℤ) + 1 < 0 ∨ (31 : ℤ) + 1 ≥ WIDTH →
      (pongStep true 1 (-1) ⟨31, 4, 1, 1, 4, 4⟩).x = WIDTH / 2 ∧
      (pongStep true 1 (-1) ⟨31, 4, 1, 1, 4, 4⟩).y = HEIGHT / 2 ∧
      ((pongStep true 1 (-1) ⟨31, 4, 1, 1, 4, 4⟩).dx = 1 ∨
       (pongStep true 1 (-1) ⟨31, 4, 1, 1, 4, 4⟩).dx = -1) ∧
      ((pongStep true 1 (-1) ⟨31, 4, 1, 1, 4, 4⟩).dy = 1 ∨
       (pongStep true 1 (-1) ⟨31, 4, 1, 1, 4, 4⟩).dy = -1)) :=
  C5_pong_step true 1 (-1) ⟨31, 4, 1, 1, 4, 4⟩ (by decide) (by decide)
    (by decide) (by decide) (by decide)

/-- Helper for C4: after cooling and injecting, the bottom row is still in
`[0, 15]` whenever the previous buffer was. -/
theorem fire_bottom_in_range (fo : FireOracle) (hfo : fo.Valid)
    (f : FireBuffer) (hf : FireInRange f) :
    ∀ x < 32, 0 ≤ fireInjected fo (fireCooled fo f) 7 x ∧
              fireInjected fo (fireCooled fo f) 7 x ≤ 15 := by
  intro x hx
  obtain ⟨-, hinj, -⟩ := hfo
  have hb := hf 7 (by norm_num) x hx
  have hi := hinj x
  rcases Bool.eq_false_or_eq_true (fo.injectQ x) with hq | hq
  · have heq : fireInjected fo (fireCooled fo f) 7 x = fo.injectV x := by
      simp [fireInjected, hq]
    rw [heq]
    omega
  · have heq : fireInjected fo (fireCooled fo f) 7 x = f 7 x := by
      simp [fireInjected, fireCooled, hq]
    rw [heq]
    exact hb

/-- Helper for C4: every propagated row stays in `[0, 15]` when the bottom
row it grows from does. -/
theorem fireRowUp_in_range (fo : FireOracle) (hfo : fo.Valid)
    (bottom : ℕ → ℤ) (hb : ∀ x < 32, 0 ≤ bottom x ∧ bottom x ≤ 15) :
    ∀ k, ∀ x < 32, 0 ≤ fireRowUp fo bottom k x ∧ fireRowUp fo bottom k x ≤ 15 := by
  obtain ⟨-, -, hprop⟩ := hfo
  intro k
  induction k with
  | zero => exact hb
  | succ n ih =>
    intro x hx
    have hx0 := ih x hx
    have hxm : x - 1 < 32 := by omega
    have hheat : 0 ≤ heat3 (fireRowUp fo bottom n) x ∧
        heat3 (fireRowUp fo bottom n) x ≤ 45 := by
      unfold heat3
      have hm := ih (x - 1) hxm
      by_cases hgt : 0 < x <;> by_cases hlt : x < 31
      · have hp := ih (x + 1) (by omega)
        simp only [hgt, hlt, if_true]
        omega
      · simp only [hgt, hlt, if_true, if_false]
        omega
      · have hp := ih (x + 1) (by omega)
        simp only [hgt, hlt, if_true, if_false]
        omega
      · simp only [hgt, hlt, if_false]
        omega
    have hp := hprop (6 - n) x
    unfold fireRowUp
    constructor
    · exact le_max_left 0 _
    · have hle : heat3 (fireRowUp fo bottom n) x / 3 - fo.prop (6 - n) x ≤ 15 := by
        omega
      omega

/-- Helper for C4: one `fire_effect` tick preserves the `[0, 15]` range of
every cell. -/
theorem fire_effect_step_in_range (fo : FireOracle) (hfo : fo.Valid)
    (f : FireBuffer) (hf : FireInRange f) :
    FireInRange (fire_effect_step fo f) := by
  intro y hy x hx
  have hb := fire_bottom_in_range fo hfo f hf
  have hrow := fireRowUp_in_range fo hfo
    (fun c => fireInjected fo (fireCooled fo f) 7 c) hb (7 - y) x hx
  simpa [fire_effect_step, show y ≤ 7 by omega] using hrow

/-- C4: starting from the all-zero fire grid, after any number of
`fire_effect` ticks — for every sequence of random draws in the ranges the
library guarantees — every cell of the 8×32 heat buffer lies in `[0, 15]`. -/
theorem C4_fire_in_range (fos : List FireOracle)
    (h : ∀ fo ∈ fos, fo.Valid) : FireInRange (fireRun fos zeroFire) := by
  have base : FireInRange zeroFire := by
    intro y _ x _
    simp [zeroFire]
  have main : ∀ (l : List FireOracle) (f : FireBuffer),
      (∀ fo ∈ l, fo.Valid) → FireInRange f → FireInRange (fireRun l f) := by
    intro l
    induction l with
    | nil =>
      intro f _ hf
      simpa [fireRun] using hf
    | cons fo fos ih =>
      intro f hl hf
      have hcons : fireRun (fo :: fos) f = fireRun fos (fire_effect_step fo f) := rfl
      rw [hcons]
      exact ih _ (fun g hg => hl g (List.mem_cons_of_mem fo hg))
        (fire_effect_step_in_range fo (hl fo (List.mem_cons_self fo fos)) f hf)
  exact main fos zeroFire h base

/-- C4 witness: one tick with a concrete draw sequence (always inject heat
10, cool by 1, no propagation subtraction) keeps every cell in range. -/
theorem C4_fire_in_range_witness :
    FireInRange (fireRun [oracle0.fire] zeroFire) := by
  refine C4_fire_in_range [oracle0.fire] ?_
  intro fo hfo
  have hfo0 : fo = oracle0.fire := by simpa using hfo
  subst hfo0
  refine ⟨fun y x => ?_, fun x => ?_, fun y x => ?_⟩ <;> simp [oracle0]

/-- C3 counterexample: the claim says stepping one effect never writes
another effect's state; but `scanner_effect` (like `moving_dot`) advances
the same `wave_offset` variable that `wave_effect` reads and writes, so one
scanner step from the initial state changes wave's phase scalar. -/
theorem C3_counterexample :
    ¬ sliceEq "wave" initSys (stepEffect oracle0 "scanner" initSys) := by
  have h : sliceEq "wave" initSys (stepEffect oracle0 "scanner" initSys) ↔
      initSys.waveOffset = initSys.waveOffset + 1/5 := by
    simp [sliceEq, stepEffect, phaseShared]
  rw [h]
  norm_num

/-- C3 (amended): stepping one effect leaves every other effect's private
state unchanged, except among `wave`, `scanner` and `dot`, which share the
single phase scalar `wave_offset`: stepping any one of those three advances
the phase the other two use. -/
theorem C3_slice_separation_amended (o : Oracle) (e1 e2 : String) (s : Sys)
    (h1 : e1 ∈ effectIds) (h2 : e2 ∈ effectIds) (hne : e1 ≠ e2)
    (hph : ¬(e1 ∈ phaseShared ∧ e2 ∈ phaseShared)) :
    sliceEq e2 s (stepEffect o e1 s) := by
  fin_cases h1 <;> fin_cases h2 <;>
    first
      | exact absurd rfl hne
      | exact absurd (by decide) hph
      | simp [sliceEq, stepEffect, phaseShared]

/-- C3 witness: a matrix-rain step leaves the fire effect's grid untouched. -/
theorem C3_slice_separation_amended_witness :
    sliceEq "fire" initSys (stepEffect oracle0 "matrix" initSys) :=
  C3_slice_separation_amended oracle0 "matrix" "fire" initSys (by decide)
    (by decide) (by decide) (by decide)

/-- Helper: every effect name in the dispatch table is already lower-case. -/
theorem effectIds_lower : ∀ k ∈ effectIds, pyLower k = k := by decide

/-- C8: a command line whose (case-normalised) first token is unknown, and a
`start <e>` naming an unknown effect, each leave the entire runtime state
unchanged, emit only diagnostic prints (at least one), and return normally. -/
theorem C8_unknown_ignored (o : Oracle) (s : Sys) (p0 : String)
    (rest : List String) :
    (pyLower p0 ∉ knownCommands →
      (dispatchParts o (p0 :: rest) s).1 = s ∧
      (∀ ev ∈ (dispatchParts o (p0 :: rest) s).2, ev.isLog = true) ∧
      (dispatchParts o (p0 :: rest) s).2 ≠ []) ∧
    (∀ e rest2, rest = e :: rest2 → pyLower p0 = "start" → e ∉ effectIds →
      (dispatchParts o (p0 :: rest) s).1 = s ∧
      (∀ ev ∈ (dispatchParts o (p0 :: rest) s).2, ev.isLog = true) ∧
      (dispatchParts o (p0 :: rest) s).2 ≠ []) := by
  constructor
  · intro h
    simp only [knownCommands, List.mem_append, List.mem_cons,
      List.not_mem_nil, or_false, not_or] at h
    obtain ⟨⟨h1, h2, h3, h4, h5, h6⟩, h7⟩ := h
    refine ⟨?_, ?_, ?_⟩ <;>
      simp [dispatchParts, h1, h2, h3, h4, h5, h6, h7, Ev.isLog]
  · intro e rest2 hrest hstart he
    subst hrest
    refine ⟨?_, ?_, ?_⟩ <;> simp [dispatchParts, hstart, he, Ev.isLog]

/-- C8 witness: the unknown command `frobnicate` and the unknown effect
`start blah` both leave the startup state untouched. -/
theorem C8_unknown_ignored_witness :
    (dispatchParts oracle0 ["frobnicate"] initSys).1 = initSys ∧
    (dispatchParts oracle0 ["start", "blah"] initSys).1 = initSys := by
  constructor
  · exact ((C8_unknown_ignored oracle0 initSys "frobnicate" []).1 (by decide)).1
  · exact ((C8_unknown_ignored oracle0 initSys "start" ["blah"]).2 "blah" []
      rfl (by decide) (by decide)).1

/-- C9: only the command-name token is case-normalised.  A bare command
that spells a known effect id in any letter casing runs that effect once
(its interpreter state becomes one effect step; `running`/`current_effect`
are untouched; the effect is invoked), while `start` followed by any
non-lower-case spelling of the same effect id is rejected as unknown,
leaving the state fully unchanged with only diagnostics printed. -/
theorem C9_case_normalisation (o : Oracle) (s : Sys) (e c : String)
    (he : e ∈ effectIds) (hc : pyLower c = e) :
    ((dispatchParts o [c] s).1 = stepEffect o e s ∧
     (dispatchParts o [c] s).1.running = s.running ∧
     (dispatchParts o [c] s).1.currentEffect = s.currentEffect ∧
     Ev.invoke e ∈ (dispatchParts o [c] s).2) ∧
    (c ≠ e →
      (dispatchParts o ["start", c] s).1 = s ∧
      (∀ ev ∈ (dispatchParts o ["start", c] s).2, ev.isLog = true)) := by
  constructor
  · fin_cases he <;>
      refine ⟨?_, ?_, ?_, ?_⟩ <;>
      simp [dispatchParts, hc, stepEffect, effectIds, Ev.isLog]
  · intro hne
    have hcm : c ∉ effectIds := by
      intro hmem
      exact hne ((effectIds_lower c hmem ▸ hc).symm ▸ rfl)
    have hstart : pyLower "start" = "start" := by decide
    refine ⟨?_, ?_⟩ <;> simp [dispatchParts, hstart, hcm, Ev.isLog]

/-- C9 witness: bare `MATRIX` runs the matrix effect once without touching
`running`/`current_effect`, while `start MATRIX` is rejected. -/
theorem C9_case_normalisation_witness :
    ((dispatchParts oracle0 ["MATRIX"] initSys).1 =
       stepEffect oracle0 "matrix" initSys ∧
     Ev.invoke "matrix" ∈ (dispatchParts oracle0 ["MATRIX"] initSys).2) ∧
    (dispatchParts oracle0 ["start", "MATRIX"] initSys).1 = initSys := by
  have h := C9_case_normalisation oracle0 initSys "matrix" "MATRIX"
    (by decide) (by decide)
  exact ⟨⟨h.1.1, h.1.2.2.2⟩, (h.2 (by decide)).1⟩
